import Mathlib

/-! Order registry and HTTP handlers of the WeChat Pay native demo.

A shallow embedding of `service/order_store.go`, `handler/payment.go` and
`handler/notify.go`.

* `time.Time` values are instants of the process clock, embedded as integers;
  `Before` is the strict order on instants.
* `int64` amounts are embedded as `Int`: the code only copies and compares them.
* The map `map[string]*Order` is a duplicate-free association list. Every pointer
  stored in the map is reached through its key only, so records are held by value.
* `time.Now()`, the generated identifiers, the bound request bodies and the answers
  of the payment service are inputs of the handlers.
-/

namespace WechatPay

/-! ## service/order_store.go -/

/-- Instants of `time.Time`. -/
abbrev Time := Int

/-- The method `Time.Before`: `t` is strictly earlier than `u`. -/
def Before (t u : Time) : Bool := decide (t < u)

/-- The type `OrderStatus` is a string type. -/
abbrev OrderStatus := String

def OrderStatusNotPay : OrderStatus := "NOTPAY"
def OrderStatusSuccess : OrderStatus := "SUCCESS"
def OrderStatusClosed : OrderStatus := "CLOSED"
def OrderStatusRefunding : OrderStatus := "REFUNDING"
def OrderStatusRefunded : OrderStatus := "REFUNDED"

/-- The struct `Order`; pointer fields are options, unset strings are empty, unset
integers are zero. -/
structure Order where
  ID : String
  OutTradeNo : String
  Description : String
  Amount : Int
  Status : OrderStatus
  CreateTime : Time
  PayTime : Option Time
  TransactionID : String
  RefundNo : String
  RefundAmount : Int
  RefundTime : Option Time
deriving DecidableEq, Repr

/-- The map read `m[k]` with its presence flag. -/
def lookupKey (k : String) : List (String × Order) → Option Order
  | [] => none
  | (k', o) :: rest => if k' = k then some o else lookupKey k rest

/-- The map write `m[k] = o`: overwrite the entry of `k`, or add one. -/
def insertKey (k : String) (o : Order) : List (String × Order) → List (String × Order)
  | [] => [(k, o)]
  | (k', o') :: rest => if k' = k then (k, o) :: rest else (k', o') :: insertKey k o rest

/-- A write through the pointer stored under `k`: the record under `k` becomes `f` of
itself; nothing happens when `k` is absent. -/
def modifyKey (k : String) (f : Order → Order) : List (String × Order) → List (String × Order)
  | [] => []
  | (k', o) :: rest => if k' = k then (k', f o) :: rest else (k', o) :: modifyKey k f rest

/-- The builtin `delete(m, k)`. -/
def eraseKey (k : String) (l : List (String × Order)) : List (String × Order) :=
  l.filter (fun e => decide (e.1 ≠ k))

/-- The struct `OrderStore`: the map `orders`, keyed by `out_trade_no`. A map holds at
most one entry per key. -/
structure OrderStore where
  orders : List (String × Order)
  nodup : (orders.map Prod.fst).Nodup

/-- The constructor `NewOrderStore`. -/
def NewOrderStore : OrderStore := ⟨[], List.nodup_nil⟩

namespace OrderStore

/-- The keys of the map. -/
def keys (s : OrderStore) : List String := s.orders.map Prod.fst

/-- The method `Save`: `s.orders[order.OutTradeNo] = order`. -/
def Save (s : OrderStore) (order : Order) : OrderStore where
  orders := insertKey order.OutTradeNo order s.orders
  nodup := by
    have key : ∀ (k : String) (o : Order) (l : List (String × Order)),
        (insertKey k o l).map Prod.fst = l.map Prod.fst ∨
        ((insertKey k o l).map Prod.fst = l.map Prod.fst ++ [k] ∧ k ∉ l.map Prod.fst) := by
      intro k o l
      induction l with
      | nil => right; simp [insertKey]
      | cons e rest ih =>
        obtain ⟨k', o'⟩ := e
        by_cases h : k' = k
        · left; simp [insertKey, h]
        · rcases ih with ih | ⟨ih, hk⟩
          · left; simp [insertKey, h, ih]
          · right
            refine ⟨by simp [insertKey, h, ih], ?_⟩
            simp only [List.map_cons, List.mem_cons, not_or]
            exact ⟨fun e => h e.symm, hk⟩
    rcases key order.OutTradeNo order s.orders with h | ⟨h, hk⟩
    · rw [h]; exact s.nodup
    · rw [h]
      exact List.Nodup.append s.nodup (List.nodup_singleton _) (by simpa using hk)

/-- The method `Get`: the record under the key, if any. -/
def Get (s : OrderStore) (outTradeNo : String) : Option Order :=
  lookupKey outTradeNo s.orders

/-- A write to fields of the record stored under `k`. -/
def modify (s : OrderStore) (k : String) (f : Order → Order) : OrderStore where
  orders := modifyKey k f s.orders
  nodup := by
    have key : ∀ l : List (String × Order), (modifyKey k f l).map Prod.fst = l.map Prod.fst := by
      intro l
      induction l with
      | nil => rfl
      | cons e rest ih =>
        obtain ⟨k', o⟩ := e
        by_cases h : k' = k <;> simp [modifyKey, h, ih]
    rw [key]; exact s.nodup

/-- One test-and-exchange of the sort in `GetAll`:
`if result[i].CreateTime.Before(result[j].CreateTime) { result[i], result[j] = result[j], result[i] }`. -/
def swapIfBefore (result : List Order) (i j : Nat) : List Order :=
  match result[i]?, result[j]? with
  | some a, some b =>
    if Before a.CreateTime b.CreateTime then (result.set i b).set j a else result
  | _, _ => result

/-- The inner loop `for j := ...; j < len(result); j++` of `GetAll`, entered at `j`;
`fuel` bounds the number of iterations. -/
def innerLoop (i : Nat) : Nat → Nat → List Order → List Order
  | 0, _, result => result
  | fuel + 1, j, result =>
    if j < result.length then innerLoop i fuel (j + 1) (swapIfBefore result i j) else result

/-- The outer loop `for i := ...; i < len(result)-1; i++` of `GetAll`, entered at `i`;
its body is the inner loop entered at `j := i + 1`. The test `i < len(result)-1` on
Go integers is `i + 1 < len(result)`. -/
def outerLoop : Nat → Nat → List Order → List Order
  | 0, _, result => result
  | fuel + 1, i, result =>
    if i + 1 < result.length then
      outerLoop fuel (i + 1) (innerLoop i result.length (i + 1) result)
    else result

/-- The sort of `GetAll`: both loops, from `i := 0`. Each loop runs at most
`len(result)` times. -/
def sortByCreateTimeDesc (result : List Order) : List Order :=
  outerLoop result.length 0 result

/-- The orders in which `range s.orders` may visit the map: every arrangement of its
entries. -/
def RangeOrder (s : OrderStore) : Type :=
  { iter : List (String × Order) // iter.Perm s.orders }

/-- The map can be visited in the order of its representation. -/
instance (s : OrderStore) : Inhabited (RangeOrder s) := ⟨⟨s.orders, List.Perm.refl _⟩⟩

/-- The method `GetAll`. The statement `for _, order := range s.orders` visits the
entries of the map in an unspecified order; `iter` is the sequence of entries as
visited. The records are appended to `result` in that order and then sorted. -/
def GetAll (s : OrderStore) (iter : RangeOrder s) : List Order :=
  sortByCreateTimeDesc (iter.val.map Prod.snd)

/-- The method `UpdateStatus`, at the instant `now := time.Now()`. -/
def UpdateStatus (s : OrderStore) (outTradeNo : String) (status : OrderStatus) (now : Time) :
    OrderStore × Bool :=
  match s.Get outTradeNo with
  | none => (s, false)
  | some _ =>
    (s.modify outTradeNo (fun order =>
        let order := { order with Status := status }
        if status = OrderStatusSuccess then { order with PayTime := some now }
        else if status = OrderStatusRefunded then { order with RefundTime := some now }
        else order),
      true)

/-- The method `UpdatePayInfo`, at the instant `now := time.Now()`. -/
def UpdatePayInfo (s : OrderStore) (outTradeNo transactionID : String) (now : Time) :
    OrderStore × Bool :=
  match s.Get outTradeNo with
  | none => (s, false)
  | some _ =>
    (s.modify outTradeNo (fun order =>
        { order with TransactionID := transactionID, Status := OrderStatusSuccess,
                     PayTime := some now }),
      true)

/-- The method `UpdateRefundInfo`. -/
def UpdateRefundInfo (s : OrderStore) (outTradeNo refundNo : String) (refundAmount : Int) :
    OrderStore × Bool :=
  match s.Get outTradeNo with
  | none => (s, false)
  | some _ =>
    (s.modify outTradeNo (fun order =>
        { order with RefundNo := refundNo, RefundAmount := refundAmount,
                     Status := OrderStatusRefunding }),
      true)

/-- The method `Delete`. -/
def Delete (s : OrderStore) (outTradeNo : String) : OrderStore where
  orders := eraseKey outTradeNo s.orders
  nodup := by
    have h : ((eraseKey outTradeNo s.orders).map Prod.fst).Sublist (s.orders.map Prod.fst) :=
      List.Sublist.map _ (List.filter_sublist _)
    exact h.nodup s.nodup

end OrderStore

/-- A sequence of registry operations, for the stores reachable from the empty one. -/
inductive StoreOp where
  | Save (order : Order)
  | UpdateStatus (outTradeNo : String) (status : OrderStatus) (now : Time)
  | UpdatePayInfo (outTradeNo transactionID : String) (now : Time)
  | UpdateRefundInfo (outTradeNo refundNo : String) (refundAmount : Int)
  | Delete (outTradeNo : String)
deriving DecidableEq, Repr

/-- The store after one registry operation. -/
def StoreOp.apply (s : OrderStore) : StoreOp → OrderStore
  | .Save order => s.Save order
  | .UpdateStatus k status now => (s.UpdateStatus k status now).1
  | .UpdatePayInfo k tid now => (s.UpdatePayInfo k tid now).1
  | .UpdateRefundInfo k no amount => (s.UpdateRefundInfo k no amount).1
  | .Delete k => s.Delete k

/-- The store after a sequence of registry operations, first operation first. -/
def runOps (s : OrderStore) (ops : List StoreOp) : OrderStore :=
  ops.foldl StoreOp.apply s

/-! ## service/wechatpay.go, as the handlers see it -/

/-- The fields of `payments.Transaction` that `QueryOrder` reads; both are pointers. -/
structure PaymentsTransaction where
  TradeState : Option String
  TransactionId : Option String
deriving DecidableEq, Repr

/-- The field of `refunddomestic.Refund` that `RefundOrder` reads. -/
structure RefundResult where
  Status : Option String
deriving DecidableEq, Repr

/-- The methods of `WechatPayService` called by the handlers: each answers with a value
or with an error text. `CloseOrder` answers with its error, if any. -/
structure WechatPayService where
  CreateNativeOrder : String → String → Int → Except String String
  QueryOrder : String → Except String PaymentsTransaction
  CloseOrder : String → Option String
  ApplyRefund : String → String → Int → String → Except String RefundResult

/-- A call made to the payment service, with its arguments. -/
inductive UpstreamCall where
  | CreateNativeOrder (outTradeNo description : String) (totalFee : Int)
  | QueryOrder (outTradeNo : String)
  | CloseOrder (outTradeNo : String)
  | ApplyRefund (outTradeNo outRefundNo : String) (refundFee : Int) (reason : String)
deriving DecidableEq, Repr

/-! ## handler/payment.go -/

def StatusOK : Nat := 200
def StatusNoContent : Nat := 204
def StatusBadRequest : Nat := 400
def StatusUnauthorized : Nat := 401
def StatusNotFound : Nat := 404
def StatusInternalServerError : Nat := 500

/-- The struct `CreateOrderResponse`. -/
structure CreateOrderResponse where
  OrderID : String
  CodeURL : String
  Amount : Int
  ProductName : String
deriving DecidableEq, Repr

/-- The struct `CreateOrderRequest`. -/
structure CreateOrderRequest where
  ProductName : String
  Amount : Int
  OutTradeNo : String
deriving DecidableEq, Repr

/-- The struct `RefundRequest`. -/
structure RefundRequest where
  RefundFee : Int
  Reason : String
deriving DecidableEq, Repr

/-- The JSON bodies written by the handlers. -/
inductive Body where
  | error (msg : String)
  | errorStatus (msg : String) (status : OrderStatus)
  | created (resp : CreateOrderResponse)
  | order (o : Option Order)
  | orders (orders : List Order) (total : Nat)
  | closed (message orderID : String)
  | refund (message orderID refundNo : String) (refundFee : Int) (refundStatus : Option String)
  | notify (code message : String)
  | none
deriving DecidableEq, Repr

/-- What one run of a handler leaves behind: the store, the HTTP status and body, and the
calls made to the payment service, in order. -/
structure Result where
  store : OrderStore
  status : Nat
  body : Body
  calls : List UpstreamCall

/-- The binding tags of `CreateOrderRequest`: `product_name` is `required`, `amount` is
`required,min=1`. -/
def CreateOrderRequest.valid (req : CreateOrderRequest) : Bool :=
  decide (req.ProductName ≠ "") && decide (req.Amount ≠ 0) && decide (1 ≤ req.Amount)

/-- The call `c.ShouldBindJSON(&req)` of `CreateOrder`: `decoded` is the JSON body as
decoded (or the decoding error), `invalid` the text of a failed validation. -/
def bindCreateOrderRequest (decoded : Except String CreateOrderRequest) (invalid : String) :
    Except String CreateOrderRequest :=
  match decoded with
  | .error e => .error e
  | .ok req => if req.valid then .ok req else .error invalid

/-- The tail of `CreateOrder`, from the call of `CreateNativeOrder` on. -/
def createNative (h : WechatPayService) (s : OrderStore) (outTradeNo description : String)
    (amount : Int) : Result :=
  match h.CreateNativeOrder outTradeNo description amount with
  | .error e =>
    ⟨s, StatusInternalServerError, .error e, [.CreateNativeOrder outTradeNo description amount]⟩
  | .ok codeURL =>
    ⟨s, StatusOK, .created ⟨outTradeNo, codeURL, amount, description⟩,
      [.CreateNativeOrder outTradeNo description amount]⟩

/-- The order number generated by `CreateOrder`:
`fmt.Sprintf("N%s%s", time.Now().Format("20060102150405"), uuid.New().String()[:8])`;
`stamp` is the formatted time, `uuid` the string of the fresh UUID. -/
def newOutTradeNo (stamp uuid : String) : String := "N" ++ stamp ++ uuid.take 8

/-- The refund number generated by `RefundOrder`, built like `newOutTradeNo`. -/
def newOutRefundNo (stamp uuid : String) : String := "R" ++ stamp ++ uuid.take 8

/-- The handler `CreateOrder`. `stamp` and `uuid` feed the generated order number, `idUuid`
is the string of the second UUID and `now` the instant read for `CreateTime`. -/
def CreateOrder (h : WechatPayService) (s : OrderStore)
    (decoded : Except String CreateOrderRequest) (invalid : String)
    (stamp uuid idUuid : String) (now : Time) : Result :=
  match bindCreateOrderRequest decoded invalid with
  | .error e => ⟨s, StatusBadRequest, .error e, []⟩
  | .ok req =>
    if req.OutTradeNo ≠ "" then
      match s.Get req.OutTradeNo with
      | none => ⟨s, StatusNotFound, .error "订单不存在", []⟩
      | some existingOrder =>
        if existingOrder.Status ≠ OrderStatusNotPay then
          ⟨s, StatusBadRequest, .errorStatus "订单状态不允许重新支付" existingOrder.Status, []⟩
        else
          createNative h s req.OutTradeNo existingOrder.Description existingOrder.Amount
    else
      let outTradeNo := newOutTradeNo stamp uuid
      let order : Order :=
        { ID := idUuid, OutTradeNo := outTradeNo, Description := req.ProductName,
          Amount := req.Amount, Status := OrderStatusNotPay, CreateTime := now,
          PayTime := none, TransactionID := "", RefundNo := "", RefundAmount := 0,
          RefundTime := none }
      createNative h (s.Save order) outTradeNo req.ProductName req.Amount

/-- The handler `QueryOrder`, at the instant `now` of the store update. The result is
`none` when the handler panics: `*resp.TransactionId` on a nil pointer. -/
def QueryOrder (h : WechatPayService) (s : OrderStore) (orderID : String) (now : Time) :
    Option Result :=
  match s.Get orderID with
  | none => some ⟨s, StatusNotFound, .error "订单不存在", []⟩
  | some order =>
    if order.Status = OrderStatusNotPay then
      match h.QueryOrder orderID with
      | .ok resp =>
        match resp.TradeState with
        | some tradeState =>
          if tradeState = "SUCCESS" then
            match resp.TransactionId with
            | none => none
            | some transactionId =>
              let s' := (s.UpdatePayInfo orderID transactionId now).1
              some ⟨s', StatusOK, .order (s'.Get orderID), [.QueryOrder orderID]⟩
          else if tradeState = "CLOSED" then
            let s' := (s.UpdateStatus orderID OrderStatusClosed now).1
            some ⟨s', StatusOK, .order (s'.Get orderID), [.QueryOrder orderID]⟩
          else
            some ⟨s, StatusOK, .order (s.Get orderID), [.QueryOrder orderID]⟩
        | none => some ⟨s, StatusOK, .order (some order), [.QueryOrder orderID]⟩
      | .error _ => some ⟨s, StatusOK, .order (some order), [.QueryOrder orderID]⟩
    else
      some ⟨s, StatusOK, .order (some order), []⟩

/-- The handler `ListOrders`; `iter` is the order in which `GetAll` visits the map. -/
def ListOrders (s : OrderStore) (iter : OrderStore.RangeOrder s) : Result :=
  let orders := s.GetAll iter
  ⟨s, StatusOK, .orders orders orders.length, []⟩

/-- The handler `CloseOrder`, at the instant `now` of the store update. -/
def CloseOrder (h : WechatPayService) (s : OrderStore) (orderID : String) (now : Time) :
    Result :=
  match s.Get orderID with
  | none => ⟨s, StatusNotFound, .error "订单不存在", []⟩
  | some order =>
    if order.Status ≠ OrderStatusNotPay then
      ⟨s, StatusBadRequest, .errorStatus "订单状态不允许关闭" order.Status, []⟩
    else
      match h.CloseOrder orderID with
      | some e => ⟨s, StatusInternalServerError, .error e, [.CloseOrder orderID]⟩
      | none =>
        ⟨(s.UpdateStatus orderID OrderStatusClosed now).1, StatusOK,
          .closed "订单已关闭" orderID, [.CloseOrder orderID]⟩

/-- The request that `RefundOrder` works with: the bound body, or the defaults when
`c.ShouldBindJSON(&req)` fails (`bound = none`). -/
def refundRequestOf (bound : Option RefundRequest) : RefundRequest :=
  match bound with
  | some req => req
  | none => { RefundFee := 0, Reason := "用户申请退款" }

/-- The refund amount chosen by `RefundOrder`. -/
def refundFeeOf (req : RefundRequest) (order : Order) : Int :=
  if req.RefundFee = 0 ∨ req.RefundFee > order.Amount then order.Amount else req.RefundFee

/-- The handler `RefundOrder`; `stamp` and `uuid` feed the generated refund number. -/
def RefundOrder (h : WechatPayService) (s : OrderStore) (orderID : String)
    (bound : Option RefundRequest) (stamp uuid : String) : Result :=
  let req := refundRequestOf bound
  match s.Get orderID with
  | none => ⟨s, StatusNotFound, .error "订单不存在", []⟩
  | some order =>
    if order.Status ≠ OrderStatusSuccess then
      ⟨s, StatusBadRequest, .errorStatus "订单状态不允许退款" order.Status, []⟩
    else
      let refundFee := refundFeeOf req order
      let outRefundNo := newOutRefundNo stamp uuid
      match h.ApplyRefund orderID outRefundNo refundFee req.Reason with
      | .error e =>
        ⟨s, StatusInternalServerError, .error e,
          [.ApplyRefund orderID outRefundNo refundFee req.Reason]⟩
      | .ok refundResp =>
        ⟨(s.UpdateRefundInfo orderID outRefundNo refundFee).1, StatusOK,
          .refund "退款申请已提交" orderID outRefundNo refundFee refundResp.Status,
          [.ApplyRefund orderID outRefundNo refundFee req.Reason]⟩

/-! ## handler/notify.go -/

/-- The field of `notify.Request` that `PaymentNotify` reads. -/
structure NotifyRequest where
  EventType : String
deriving DecidableEq, Repr

/-- The struct `Transaction` of the payment notification. -/
structure Transaction where
  AppID : String
  MchID : String
  OutTradeNo : String
  TransactionID : String
  TradeState : String
  SuccessTime : String
  AmountTotal : Int
deriving DecidableEq, Repr

/-- The struct `Refund` of the refund notification. -/
structure Refund where
  OutTradeNo : String
  OutRefundNo : String
  RefundID : String
  RefundStatus : String
  SuccessTime : String
  AmountRefund : Int
deriving DecidableEq, Repr

/-- The method `handlePaymentNotify`; `parsed` is what `ParseNotifyRequest` gives for a
`Transaction` content, `now` the instant of the store update. -/
def handlePaymentNotify (s : OrderStore) (parsed : Except String Transaction) (now : Time) :
    Result :=
  match parsed with
  | .error _ => ⟨s, StatusBadRequest, .notify "FAIL" "解析失败", []⟩
  | .ok transaction =>
    ⟨(s.UpdatePayInfo transaction.OutTradeNo transaction.TransactionID now).1,
      StatusNoContent, .none, []⟩

/-- The method `handleRefundNotify`; `parsed` is what `ParseNotifyRequest` gives for a
`Refund` content, `now` the instant of the store update. -/
def handleRefundNotify (s : OrderStore) (parsed : Except String Refund) (now : Time) :
    Result :=
  match parsed with
  | .error _ => ⟨s, StatusBadRequest, .notify "FAIL" "解析失败", []⟩
  | .ok refund =>
    if refund.RefundStatus = "SUCCESS" then
      ⟨(s.UpdateStatus refund.OutTradeNo OrderStatusRefunded now).1, StatusNoContent, .none, []⟩
    else if refund.RefundStatus = "CLOSED" then
      ⟨(s.UpdateStatus refund.OutTradeNo OrderStatusSuccess now).1, StatusNoContent, .none, []⟩
    else
      ⟨s, StatusNoContent, .none, []⟩

/-- The handler `PaymentNotify`; `envelope` is what the first `ParseNotifyRequest` (with
no content) gives, `asTransaction` and `asRefund` what the second one gives for either
content. -/
def PaymentNotify (s : OrderStore) (envelope : Except String NotifyRequest)
    (asTransaction : Except String Transaction) (asRefund : Except String Refund)
    (now : Time) : Result :=
  match envelope with
  | .error _ => ⟨s, StatusUnauthorized, .notify "FAIL" "验签未通过", []⟩
  | .ok notifyReq =>
    if notifyReq.EventType = "TRANSACTION.SUCCESS" then
      handlePaymentNotify s asTransaction now
    else if notifyReq.EventType = "REFUND.SUCCESS" ∨ notifyReq.EventType = "REFUND.ABNORMAL"
        ∨ notifyReq.EventType = "REFUND.CLOSED" then
      handleRefundNotify s asRefund now
    else
      ⟨s, StatusOK, .notify "SUCCESS" "未知事件类型", []⟩

/-! ## Predicates used in the proofs -/

/-- The record at position `p` is not created before the record at position `q`. -/
def Dominates (r : List Order) (p q : Nat) : Prop :=
  ∀ a b, r[p]? = some a → r[q]? = some b → Before a.CreateTime b.CreateTime = false

/-- Every record is stored under its own merchant order number. -/
def KeyedByOutTradeNo (s : OrderStore) : Prop :=
  ∀ k o, s.Get k = some o → o.OutTradeNo = k

/-! ## Sample data -/

/-- An unpaid order. -/
def sampleOrder : Order :=
  { ID := "id-1", OutTradeNo := "N1", Description := "book", Amount := 100,
    Status := OrderStatusNotPay, CreateTime := 10, PayTime := none, TransactionID := "",
    RefundNo := "", RefundAmount := 0, RefundTime := none }

/-- A paid order. -/
def paidOrder : Order :=
  { ID := "id-2", OutTradeNo := "N2", Description := "pen", Amount := 250,
    Status := OrderStatusSuccess, CreateTime := 12, PayTime := some 13, TransactionID := "T2",
    RefundNo := "", RefundAmount := 0, RefundTime := none }

/-- An order with a refund under way. -/
def refundingOrder : Order :=
  { ID := "id-3", OutTradeNo := "N3", Description := "ink", Amount := 80,
    Status := OrderStatusRefunding, CreateTime := 11, PayTime := some 14, TransactionID := "T3",
    RefundNo := "R3", RefundAmount := 80, RefundTime := none }

/-- A store with the three sample orders. -/
def sampleStore : OrderStore :=
  ((NewOrderStore.Save sampleOrder).Save paidOrder).Save refundingOrder

/-- A payment service whose calls all succeed. -/
def sampleService : WechatPayService where
  CreateNativeOrder := fun _ _ _ => .ok "weixin://wxpay/bizpayurl?pr=1"
  QueryOrder := fun _ => .ok ⟨some "SUCCESS", some "T1"⟩
  CloseOrder := fun _ => none
  ApplyRefund := fun _ _ _ _ => .ok ⟨some "PROCESSING"⟩

/-- A payment service whose query answers trade state SUCCESS with no transaction id:
`TradeState` points to "SUCCESS" and `TransactionId` is nil. -/
def serviceWithoutTransactionId : WechatPayService where
  CreateNativeOrder := fun _ _ _ => .ok "weixin://wxpay/bizpayurl?pr=1"
  QueryOrder := fun _ => .ok ⟨some "SUCCESS", none⟩
  CloseOrder := fun _ => none
  ApplyRefund := fun _ _ _ _ => .ok ⟨some "PROCESSING"⟩

/-! ## Lemmas on the sort of `GetAll` -/

section SortLemmas

/-- Overwriting position `j`, which held `b`, with `x`, and putting `b` in front, rearranges
`x` in front of the list. -/
theorem cons_set_perm (l : List Order) (j : Nat) (b x : Order) (h : l[j]? = some b) :
    (b :: l.set j x).Perm (x :: l) := by
  induction l generalizing j with
  | nil => simp at h
  | cons y t ih =>
    cases j with
    | zero =>
      simp only [List.getElem?_cons_zero, Option.some.injEq] at h
      subst h
      simpa using List.Perm.swap x y t
    | succ j =>
      simp only [List.getElem?_cons_succ] at h
      simp only [List.set_cons_succ]
      exact ((List.Perm.swap y b _).trans ((ih j h).cons y)).trans (List.Perm.swap x y t)

/-- Exchanging two positions of a list rearranges it. -/
theorem exchange_perm (l : List Order) (i j : Nat) (a b : Order)
    (hi : l[i]? = some a) (hj : l[j]? = some b) : ((l.set i b).set j a).Perm l := by
  induction l generalizing i j with
  | nil => simp at hi
  | cons y t ih =>
    cases i with
    | zero =>
      simp only [List.getElem?_cons_zero, Option.some.injEq] at hi
      subst hi
      cases j with
      | zero =>
        simp only [List.getElem?_cons_zero, Option.some.injEq] at hj
        subst hj
        simp
      | succ j =>
        simp only [List.getElem?_cons_succ] at hj
        simpa using cons_set_perm t j b y hj
    | succ i =>
      simp only [List.getElem?_cons_succ] at hi
      cases j with
      | zero =>
        simp only [List.getElem?_cons_zero, Option.some.injEq] at hj
        subst hj
        simpa using cons_set_perm t i a y hi
      | succ j =>
        simp only [List.getElem?_cons_succ] at hj
        simpa using (ih i j hi hj).cons y

/-- The two outcomes of one test-and-exchange at positions holding `a` and `b`. -/
theorem swapIfBefore_cases (r : List Order) (i j : Nat) (a b : Order)
    (hi : r[i]? = some a) (hj : r[j]? = some b) :
    (Before a.CreateTime b.CreateTime = true ∧ OrderStore.swapIfBefore r i j = (r.set i b).set j a) ∨
    (Before a.CreateTime b.CreateTime = false ∧ OrderStore.swapIfBefore r i j = r) := by
  unfold OrderStore.swapIfBefore
  rw [hi, hj]
  cases h : Before a.CreateTime b.CreateTime <;> simp [h]

theorem swapIfBefore_perm (r : List Order) (i j : Nat) : (OrderStore.swapIfBefore r i j).Perm r := by
  unfold OrderStore.swapIfBefore
  split
  · rename_i a b hi hj
    split
    · exact exchange_perm r i j a b hi hj
    · exact List.Perm.refl _
  · exact List.Perm.refl _

theorem before_false_trans {t u v : Time} (h₁ : Before t u = false) (h₂ : Before u v = false) :
    Before t v = false := by
  simp only [Before, decide_eq_false_iff_not, not_lt] at *
  exact le_trans h₂ h₁

theorem before_false_of_before {t u : Time} (h : Before t u = true) : Before u t = false := by
  simp only [Before, decide_eq_true_eq, decide_eq_false_iff_not, not_lt] at *
  exact le_of_lt h

/-- The inner loop of `GetAll`, entered at `j` with position `i` dominating the positions
between `i` and `j`: the result rearranges the list, keeps the positions before `i`,
fills the positions from `i` on with records taken from those positions, and position `i`
dominates every later one. -/
theorem innerLoop_spec (i fuel : Nat) : ∀ (j : Nat) (r : List Order), i < j →
    r.length ≤ j + fuel → (∀ m, i < m → m < j → Dominates r i m) →
    (OrderStore.innerLoop i fuel j r).Perm r ∧
    (∀ m, m < i → (OrderStore.innerLoop i fuel j r)[m]? = r[m]?) ∧
    (∀ m x, i ≤ m → (OrderStore.innerLoop i fuel j r)[m]? = some x → ∃ m', i ≤ m' ∧ r[m']? = some x) ∧
    (∀ m, i < m → Dominates (OrderStore.innerLoop i fuel j r) i m) := by
  have stop : ∀ (j : Nat) (r : List Order), r.length ≤ j →
      (∀ m, i < m → m < j → Dominates r i m) →
      r.Perm r ∧ (∀ m, m < i → r[m]? = r[m]?) ∧
      (∀ m x, i ≤ m → r[m]? = some x → ∃ m', i ≤ m' ∧ r[m']? = some x) ∧
      (∀ m, i < m → Dominates r i m) := by
    intro j r hlen hinv
    refine ⟨List.Perm.refl _, fun _ _ => rfl, fun m x hm hx => ⟨m, hm, hx⟩, ?_⟩
    intro m hm
    by_cases hmj : m < j
    · exact hinv m hm hmj
    · intro a b _ hb
      have : r[m]? = none := List.getElem?_eq_none (by omega)
      rw [this] at hb
      cases hb
  induction fuel with
  | zero =>
    intro j r _ hlen hinv
    have e : OrderStore.innerLoop i 0 j r = r := rfl
    rw [e]
    exact stop j r (by omega) hinv
  | succ fuel ih =>
    intro j r hij hlen hinv
    by_cases hj : j < r.length
    · have hi : i < r.length := by omega
      simp only [OrderStore.innerLoop, hj, if_true]
      have hgi : r[i]? = some r[i] := List.getElem?_eq_getElem hi
      have hgj : r[j]? = some r[j] := List.getElem?_eq_getElem hj
      have hlen1 : (OrderStore.swapIfBefore r i j).length = r.length := (swapIfBefore_perm r i j).length_eq
      rcases swapIfBefore_cases r i j r[i] r[j] hgi hgj with ⟨hb, hsw⟩ | ⟨hb, hsw⟩
      · -- exchanged
        have hne : i ≠ j := by omega
        have g : ∀ m, (OrderStore.swapIfBefore r i j)[m]? =
            if m = j then some r[i] else if m = i then some r[j] else r[m]? := by
          intro m
          rw [hsw, List.getElem?_set, List.getElem?_set]
          by_cases h1 : j = m
          · subst h1
            simp [hj]
          · by_cases h2 : i = m
            · subst h2
              simp [h1, hi, Ne.symm h1]
            · simp [h1, h2, Ne.symm h1, Ne.symm h2]
        have hinv1 : ∀ m, i < m → m < j + 1 → Dominates (OrderStore.swapIfBefore r i j) i m := by
          intro m hm hmj a b ha hb'
          rw [g] at ha hb'
          rw [if_neg hne, if_pos rfl, Option.some.injEq] at ha
          subst ha
          by_cases h1 : m = j
          · simp only [h1, if_true, Option.some.injEq] at hb'
            subst hb'
            exact before_false_of_before hb
          · have h2 : m ≠ i := by omega
            simp only [h1, h2, if_false] at hb'
            have := hinv m hm (by omega) r[i] b hgi hb'
            exact before_false_trans (before_false_of_before hb) this
        obtain ⟨p1, p2, p3, p4⟩ := ih (j + 1) (OrderStore.swapIfBefore r i j) (by omega) (by omega) hinv1
        refine ⟨p1.trans (swapIfBefore_perm r i j), ?_, ?_, p4⟩
        · intro m hm
          rw [p2 m hm, g]
          have h1 : m ≠ j := by omega
          have h2 : m ≠ i := by omega
          simp [h1, h2]
        · intro m x hm hx
          obtain ⟨m', hm', hx'⟩ := p3 m x hm hx
          rw [g] at hx'
          by_cases h1 : m' = j
          · simp only [h1, if_true] at hx'
            exact ⟨i, le_refl _, hgi.trans hx'⟩
          · by_cases h2 : m' = i
            · subst h2
              rw [if_neg hne, if_pos rfl] at hx'
              exact ⟨j, by omega, hgj.trans hx'⟩
            · simp only [h1, h2, if_false] at hx'
              exact ⟨m', hm', hx'⟩
      · -- left in place
        rw [hsw]
        have hinv1 : ∀ m, i < m → m < j + 1 → Dominates r i m := by
          intro m hm hmj
          by_cases h1 : m = j
          · subst h1
            intro a b ha hb'
            rw [hgi] at ha
            rw [hgj] at hb'
            cases ha
            cases hb'
            exact hb
          · exact hinv m hm (by omega)
        exact ih (j + 1) r (by omega) (by omega) hinv1
    · have e : OrderStore.innerLoop i (fuel + 1) j r = r := by simp [OrderStore.innerLoop, hj]
      rw [e]
      exact stop j r (by omega) hinv

/-- The outer loop of `GetAll`, entered at `i` with every position before `i` dominating
every later position: the result rearranges the list and every position dominates every
later one. -/
theorem outerLoop_spec (fuel : Nat) : ∀ (i : Nat) (r : List Order),
    r.length ≤ i + fuel → (∀ p q, p < i → p < q → Dominates r p q) →
    (OrderStore.outerLoop fuel i r).Perm r ∧ (∀ p q, p < q → Dominates (OrderStore.outerLoop fuel i r) p q) := by
  have stop : ∀ (i : Nat) (r : List Order), r.length ≤ i + 1 →
      (∀ p q, p < i → p < q → Dominates r p q) →
      r.Perm r ∧ (∀ p q, p < q → Dominates r p q) := by
    intro i r hlen hinv
    refine ⟨List.Perm.refl _, ?_⟩
    intro p q hpq
    by_cases hp : p < i
    · exact hinv p q hp hpq
    · intro a b _ hb
      have : r[q]? = none := List.getElem?_eq_none (by omega)
      rw [this] at hb
      cases hb
  induction fuel with
  | zero =>
    intro i r hlen hinv
    have e : OrderStore.outerLoop 0 i r = r := rfl
    rw [e]
    exact stop i r (by omega) hinv
  | succ fuel ih =>
    intro i r hlen hinv
    by_cases hi : i + 1 < r.length
    · have e : OrderStore.outerLoop (fuel + 1) i r =
          OrderStore.outerLoop fuel (i + 1) (OrderStore.innerLoop i r.length (i + 1) r) := by
        simp [OrderStore.outerLoop, hi]
      rw [e]
      obtain ⟨p1, p2, p3, p4⟩ := innerLoop_spec i r.length (i + 1) r (by omega) (by omega)
        (fun m h₁ h₂ => absurd h₂ (by omega))
      have hinv1 : ∀ p q, p < i + 1 → p < q →
          Dominates (OrderStore.innerLoop i r.length (i + 1) r) p q := by
        intro p q hp hpq
        by_cases hpi : p < i
        · intro a b ha hb
          rw [p2 p hpi] at ha
          by_cases hqi : q < i
          · rw [p2 q hqi] at hb
            exact hinv p q hpi hpq a b ha hb
          · obtain ⟨q', hq', hb'⟩ := p3 q b (by omega) hb
            exact hinv p q' hpi (by omega) a b ha hb'
        · have : p = i := by omega
          subst this
          exact p4 q hpq
      obtain ⟨q1, q2⟩ := ih (i + 1) (OrderStore.innerLoop i r.length (i + 1) r)
        (by rw [p1.length_eq]; omega) hinv1
      exact ⟨q1.trans p1, q2⟩
    · have e : OrderStore.outerLoop (fuel + 1) i r = r := by simp [OrderStore.outerLoop, hi]
      rw [e]
      exact stop i r (by omega) hinv

/-- The sort of `GetAll` rearranges its input into descending creation time: no record
is created before a record that comes later in the result. -/
theorem sortByCreateTimeDesc_spec (r : List Order) :
    (OrderStore.sortByCreateTimeDesc r).Perm r ∧
    (OrderStore.sortByCreateTimeDesc r).Pairwise
      (fun a b => Before a.CreateTime b.CreateTime = false) := by
  obtain ⟨h1, h2⟩ := outerLoop_spec r.length 0 r (by omega) (fun p q hp _ => absurd hp (by omega))
  refine ⟨h1, ?_⟩
  rw [List.pairwise_iff_getElem]
  intro p q hp hq hpq
  exact h2 p q hpq _ _ (List.getElem?_eq_getElem hp) (List.getElem?_eq_getElem hq)

end SortLemmas

/-! ## Lemmas on the registry -/

section StoreLemmas

theorem OrderStore.ext_orders {s t : OrderStore} (h : s.orders = t.orders) : s = t := by
  cases s
  cases t
  cases h
  rfl

theorem lookupKey_modifyKey (k : String) (f : Order → Order) (l : List (String × Order))
    (k' : String) :
    lookupKey k' (modifyKey k f l) = if k' = k then (lookupKey k l).map f else lookupKey k' l := by
  induction l with
  | nil => simp [modifyKey, lookupKey]
  | cons e rest ih =>
    obtain ⟨k₀, o⟩ := e
    by_cases h : k₀ = k
    · subst h
      by_cases h' : k' = k₀
      · subst h'
        simp [modifyKey, lookupKey]
      · simp [modifyKey, lookupKey, h', Ne.symm h']
    · by_cases h' : k' = k
      · subst h'
        simp [modifyKey, lookupKey, h, ih]
      · by_cases h'' : k₀ = k'
        · simp [modifyKey, lookupKey, h, h', h'']
        · simp [modifyKey, lookupKey, h, h', h'', ih]

theorem lookupKey_insertKey (k : String) (o : Order) (l : List (String × Order))
    (k' : String) :
    lookupKey k' (insertKey k o l) = if k' = k then some o else lookupKey k' l := by
  induction l with
  | nil =>
    by_cases h' : k' = k
    · simp [insertKey, lookupKey, h']
    · simp [insertKey, lookupKey, h', Ne.symm h']
  | cons e rest ih =>
    obtain ⟨k₀, o₀⟩ := e
    by_cases h : k₀ = k
    · subst h
      by_cases h' : k' = k₀
      · simp [insertKey, lookupKey, h']
      · simp [insertKey, lookupKey, h', Ne.symm h']
    · by_cases h' : k' = k
      · subst h'
        simp [insertKey, lookupKey, h, ih]
      · by_cases h'' : k₀ = k'
        · simp [insertKey, lookupKey, h, h', h'']
        · simp [insertKey, lookupKey, h, h', h'', ih]

theorem lookupKey_eraseKey (k : String) (l : List (String × Order)) (k' : String) :
    lookupKey k' (eraseKey k l) = if k' = k then none else lookupKey k' l := by
  induction l with
  | nil => simp [eraseKey, lookupKey]
  | cons e rest ih =>
    obtain ⟨k₀, o₀⟩ := e
    unfold eraseKey at ih ⊢
    by_cases h : k₀ = k
    · subst h
      by_cases h' : k' = k₀
      · simp [lookupKey, h', List.filter_cons] at ih ⊢
        exact ih
      · simp [lookupKey, h', Ne.symm h', List.filter_cons] at ih ⊢
        exact ih
    · by_cases h' : k' = k
      · subst h'
        simp [lookupKey, h, List.filter_cons] at ih ⊢
        exact ih
      · by_cases h'' : k₀ = k'
        · simp [lookupKey, h, h', h'', List.filter_cons]
        · simp [lookupKey, h, h', h'', List.filter_cons] at ih ⊢
          exact ih

theorem modifyKey_of_lookupKey_none (k : String) (f : Order → Order)
    (l : List (String × Order)) (h : lookupKey k l = none) : modifyKey k f l = l := by
  induction l with
  | nil => rfl
  | cons e rest ih =>
    obtain ⟨k₀, o⟩ := e
    by_cases h' : k₀ = k
    · simp [lookupKey, h'] at h
    · simp only [lookupKey, h', if_false] at h
      simp [modifyKey, h', ih h]

theorem map_fst_modifyKey (k : String) (f : Order → Order) (l : List (String × Order)) :
    (modifyKey k f l).map Prod.fst = l.map Prod.fst := by
  induction l with
  | nil => rfl
  | cons e rest ih =>
    obtain ⟨k', o⟩ := e
    by_cases h : k' = k <;> simp [modifyKey, h, ih]

theorem lookupKey_isSome_iff (k : String) (l : List (String × Order)) :
    (lookupKey k l).isSome = true ↔ k ∈ l.map Prod.fst := by
  induction l with
  | nil => simp [lookupKey]
  | cons e rest ih =>
    obtain ⟨k₀, o⟩ := e
    by_cases h : k₀ = k
    · simp [lookupKey, h]
    · simp [lookupKey, h, ih, Ne.symm h]

theorem OrderStore.Get_modify (s : OrderStore) (k : String) (f : Order → Order) (k' : String) :
    (s.modify k f).Get k' = if k' = k then (s.Get k).map f else s.Get k' :=
  lookupKey_modifyKey k f s.orders k'

theorem OrderStore.keys_modify (s : OrderStore) (k : String) (f : Order → Order) :
    (s.modify k f).keys = s.keys :=
  map_fst_modifyKey k f s.orders

theorem OrderStore.Get_Save (s : OrderStore) (o : Order) (k' : String) :
    (s.Save o).Get k' = if k' = o.OutTradeNo then some o else s.Get k' :=
  lookupKey_insertKey o.OutTradeNo o s.orders k'

theorem OrderStore.Get_Delete (s : OrderStore) (k k' : String) :
    (s.Delete k).Get k' = if k' = k then none else s.Get k' :=
  lookupKey_eraseKey k s.orders k'

theorem OrderStore.mem_keys_iff (s : OrderStore) (k : String) :
    k ∈ s.keys ↔ ∃ o, s.Get k = some o := by
  rw [← Option.isSome_iff_exists]
  exact (lookupKey_isSome_iff k s.orders).symm

theorem OrderStore.UpdateStatus_snd (s : OrderStore) (k : String) (status : OrderStatus)
    (now : Time) : (s.UpdateStatus k status now).2 = (s.Get k).isSome := by
  unfold OrderStore.UpdateStatus
  cases s.Get k <;> rfl

theorem OrderStore.UpdateStatus_Get (s : OrderStore) (k : String) (status : OrderStatus)
    (now : Time) (k' : String) :
    (s.UpdateStatus k status now).1.Get k' =
      if k' = k then
        (s.Get k).map (fun o =>
          { o with Status := status,
                   PayTime := if status = OrderStatusSuccess then some now else o.PayTime,
                   RefundTime := if status = OrderStatusRefunded then some now
                                 else o.RefundTime })
      else s.Get k' := by
  unfold OrderStore.UpdateStatus
  cases hk : s.Get k with
  | none =>
    by_cases h : k' = k
    · simp [h, hk]
    · simp [h]
  | some o =>
    simp only [OrderStore.Get_modify, hk, Option.map_some']
    by_cases h : k' = k
    · simp only [h, if_true]
      have ne1 : OrderStatusSuccess ≠ OrderStatusRefunded := by decide
      have ne2 : OrderStatusRefunded ≠ OrderStatusSuccess := by decide
      by_cases h1 : status = OrderStatusSuccess
      · simp [h1, ne1]
      · by_cases h2 : status = OrderStatusRefunded
        · simp [h2, ne2]
        · simp [h1, h2]
    · simp [h]

theorem OrderStore.UpdateStatus_keys (s : OrderStore) (k : String) (status : OrderStatus)
    (now : Time) : (s.UpdateStatus k status now).1.keys = s.keys := by
  unfold OrderStore.UpdateStatus
  cases s.Get k with
  | none => rfl
  | some o => exact OrderStore.keys_modify _ _ _

theorem OrderStore.UpdateStatus_absent (s : OrderStore) (k : String) (status : OrderStatus)
    (now : Time) (h : s.Get k = none) : (s.UpdateStatus k status now).1 = s := by
  unfold OrderStore.UpdateStatus
  rw [h]

theorem OrderStore.UpdatePayInfo_snd (s : OrderStore) (k tid : String) (now : Time) :
    (s.UpdatePayInfo k tid now).2 = (s.Get k).isSome := by
  unfold OrderStore.UpdatePayInfo
  cases s.Get k <;> rfl

theorem OrderStore.UpdatePayInfo_Get (s : OrderStore) (k tid : String) (now : Time)
    (k' : String) :
    (s.UpdatePayInfo k tid now).1.Get k' =
      if k' = k then
        (s.Get k).map (fun o =>
          { o with TransactionID := tid, Status := OrderStatusSuccess, PayTime := some now })
      else s.Get k' := by
  unfold OrderStore.UpdatePayInfo
  cases hk : s.Get k with
  | none =>
    by_cases h : k' = k
    · simp [h, hk]
    · simp [h]
  | some o => simp only [OrderStore.Get_modify, hk]

theorem OrderStore.UpdatePayInfo_keys (s : OrderStore) (k tid : String) (now : Time) :
    (s.UpdatePayInfo k tid now).1.keys = s.keys := by
  unfold OrderStore.UpdatePayInfo
  cases s.Get k with
  | none => rfl
  | some o => exact OrderStore.keys_modify _ _ _

theorem OrderStore.UpdateRefundInfo_snd (s : OrderStore) (k no : String) (amount : Int) :
    (s.UpdateRefundInfo k no amount).2 = (s.Get k).isSome := by
  unfold OrderStore.UpdateRefundInfo
  cases s.Get k <;> rfl

theorem OrderStore.UpdateRefundInfo_Get (s : OrderStore) (k no : String) (amount : Int)
    (k' : String) :
    (s.UpdateRefundInfo k no amount).1.Get k' =
      if k' = k then
        (s.Get k).map (fun o =>
          { o with RefundNo := no, RefundAmount := amount, Status := OrderStatusRefunding })
      else s.Get k' := by
  unfold OrderStore.UpdateRefundInfo
  cases hk : s.Get k with
  | none =>
    by_cases h : k' = k
    · simp [h, hk]
    · simp [h]
  | some o => simp only [OrderStore.Get_modify, hk]

theorem OrderStore.UpdateRefundInfo_keys (s : OrderStore) (k no : String) (amount : Int) :
    (s.UpdateRefundInfo k no amount).1.keys = s.keys := by
  unfold OrderStore.UpdateRefundInfo
  cases s.Get k with
  | none => rfl
  | some o => exact OrderStore.keys_modify _ _ _

theorem OrderStore.UpdateRefundInfo_absent (s : OrderStore) (k no : String) (amount : Int)
    (h : s.Get k = none) : (s.UpdateRefundInfo k no amount).1 = s := by
  unfold OrderStore.UpdateRefundInfo
  rw [h]

theorem OrderStore.Get_eq_none_of_not_mem (s : OrderStore) (k : String) (h : k ∉ s.keys) :
    s.Get k = none := by
  cases hk : s.Get k with
  | none => rfl
  | some o => exact absurd ((s.mem_keys_iff k).2 ⟨o, hk⟩) h

theorem OrderStore.isSome_Get_iff (s : OrderStore) (k : String) :
    (s.Get k).isSome = true ↔ k ∈ s.keys :=
  lookupKey_isSome_iff k s.orders

theorem KeyedByOutTradeNo_new : KeyedByOutTradeNo NewOrderStore := by
  intro k o h
  simp [NewOrderStore, OrderStore.Get, lookupKey] at h

theorem KeyedByOutTradeNo_apply (s : OrderStore) (op : StoreOp) (h : KeyedByOutTradeNo s) :
    KeyedByOutTradeNo (op.apply s) := by
  intro k' o' hget
  cases op with
  | Save order =>
    simp only [StoreOp.apply, OrderStore.Get_Save] at hget
    by_cases hk : k' = order.OutTradeNo
    · rw [if_pos hk] at hget
      cases hget
      exact hk.symm
    · rw [if_neg hk] at hget
      exact h k' o' hget
  | UpdateStatus k status now =>
    simp only [StoreOp.apply, OrderStore.UpdateStatus_Get] at hget
    by_cases hk : k' = k
    · rw [if_pos hk] at hget
      cases hs : s.Get k with
      | none => rw [hs] at hget; cases hget
      | some o =>
        rw [hs] at hget
        cases hget
        rw [hk]
        exact h k o hs
    · rw [if_neg hk] at hget
      exact h k' o' hget
  | UpdatePayInfo k tid now =>
    simp only [StoreOp.apply, OrderStore.UpdatePayInfo_Get] at hget
    by_cases hk : k' = k
    · rw [if_pos hk] at hget
      cases hs : s.Get k with
      | none => rw [hs] at hget; cases hget
      | some o =>
        rw [hs] at hget
        cases hget
        rw [hk]
        exact h k o hs
    · rw [if_neg hk] at hget
      exact h k' o' hget
  | UpdateRefundInfo k no amount =>
    simp only [StoreOp.apply, OrderStore.UpdateRefundInfo_Get] at hget
    by_cases hk : k' = k
    · rw [if_pos hk] at hget
      cases hs : s.Get k with
      | none => rw [hs] at hget; cases hget
      | some o =>
        rw [hs] at hget
        cases hget
        rw [hk]
        exact h k o hs
    · rw [if_neg hk] at hget
      exact h k' o' hget
  | Delete k =>
    simp only [StoreOp.apply, OrderStore.Get_Delete] at hget
    by_cases hk : k' = k
    · rw [if_pos hk] at hget
      cases hget
    · rw [if_neg hk] at hget
      exact h k' o' hget

theorem KeyedByOutTradeNo_runOps (ops : List StoreOp) :
    ∀ s : OrderStore, KeyedByOutTradeNo s → KeyedByOutTradeNo (runOps s ops) := by
  induction ops with
  | nil => intro s h; exact h
  | cons op rest ih =>
    intro s h
    exact ih (op.apply s) (KeyedByOutTradeNo_apply s op h)

/-- A trade state SUCCESS without a transaction id: `QueryOrder` has called the payment
service and dereferences the nil `resp.TransactionId`; it does not return. -/
theorem QueryOrder_nil_transaction_id (h : WechatPayService) (s : OrderStore)
    (orderID : String) (now : Time) (order : Order) (hget : s.Get orderID = some order)
    (hst : order.Status = OrderStatusNotPay)
    (hq : h.QueryOrder orderID = .ok ⟨some "SUCCESS", none⟩) :
    QueryOrder h s orderID now = none := by
  simp [QueryOrder, hget, hst, hq]

end StoreLemmas

/-! ## The claims -/

/-- C1: for every order store and every order in which the map is visited, `GetAll`
returns a rearrangement of exactly the stored orders, of the same length, in which no
element is created before the element that follows it (descending creation time). -/
theorem GetAll_perm_sorted_desc (s : OrderStore) (iter : OrderStore.RangeOrder s) :
    (s.GetAll iter).Perm (s.orders.map Prod.snd) ∧
    (s.GetAll iter).length = s.orders.length ∧
    (s.GetAll iter).Chain' (fun earlier later =>
      Before earlier.CreateTime later.CreateTime = false) ∧
    (ListOrders s iter).body = Body.orders (s.GetAll iter) s.orders.length := by
  obtain ⟨h1, h2⟩ := sortByCreateTimeDesc_spec (iter.val.map Prod.snd)
  have hp : (s.GetAll iter).Perm (s.orders.map Prod.snd) := h1.trans (iter.property.map _)
  have hl : (s.GetAll iter).length = s.orders.length := by
    rw [hp.length_eq, List.length_map]
  refine ⟨hp, hl, h2.chain', ?_⟩
  simp [ListOrders, hl]

/-- C2: for a stored order whose status is not SUCCESS and any refund request body,
`RefundOrder` answers 400, makes no call to the payment service and leaves the store as
it was. -/
theorem RefundOrder_rejects_unless_success (h : WechatPayService) (s : OrderStore)
    (orderID : String) (bound : Option RefundRequest) (stamp uuid : String) (order : Order)
    (hget : s.Get orderID = some order) (hst : order.Status ≠ OrderStatusSuccess) :
    (RefundOrder h s orderID bound stamp uuid).status = 400 ∧
    (RefundOrder h s orderID bound stamp uuid).calls = [] ∧
    (RefundOrder h s orderID bound stamp uuid).store = s := by
  have e : RefundOrder h s orderID bound stamp uuid =
      ⟨s, StatusBadRequest, .errorStatus "订单状态不允许退款" order.Status, []⟩ := by
    unfold RefundOrder
    simp only [hget]
    rw [if_pos hst]
  rw [e]
  exact ⟨rfl, rfl, rfl⟩

theorem RefundOrder_rejects_unless_success_witness :
    sampleStore.Get "N1" = some sampleOrder ∧ sampleOrder.Status ≠ OrderStatusSuccess ∧
    (RefundOrder sampleService sampleStore "N1" (some ⟨30, "damaged"⟩) "20240101120000"
        "0f8fad5b-d9cb-469f-a165-70867728950e").status = 400 ∧
    (RefundOrder sampleService sampleStore "N1" (some ⟨30, "damaged"⟩) "20240101120000"
        "0f8fad5b-d9cb-469f-a165-70867728950e").calls = [] ∧
    (RefundOrder sampleService sampleStore "N1" (some ⟨30, "damaged"⟩) "20240101120000"
        "0f8fad5b-d9cb-469f-a165-70867728950e").store = sampleStore :=
  ⟨by decide, by decide,
    RefundOrder_rejects_unless_success sampleService sampleStore "N1" (some ⟨30, "damaged"⟩)
      "20240101120000" "0f8fad5b-d9cb-469f-a165-70867728950e" sampleOrder (by decide)
      (by decide)⟩

/-- C3: for a stored order whose status is not NOTPAY, `CloseOrder` answers 400, makes no
call to the payment service and leaves the store as it was; for a stored order in NOTPAY
whose close call succeeds, the order is afterwards the same record with status CLOSED and
every other key holds what it held. -/
theorem CloseOrder_only_from_notpay (h : WechatPayService) (s : OrderStore)
    (orderID : String) (now : Time) (order : Order) (hget : s.Get orderID = some order) :
    (order.Status ≠ OrderStatusNotPay →
      (CloseOrder h s orderID now).status = 400 ∧
      (CloseOrder h s orderID now).calls = [] ∧
      (CloseOrder h s orderID now).store = s) ∧
    (order.Status = OrderStatusNotPay → h.CloseOrder orderID = none →
      (CloseOrder h s orderID now).status = 200 ∧
      (CloseOrder h s orderID now).calls = [UpstreamCall.CloseOrder orderID] ∧
      (CloseOrder h s orderID now).store.keys = s.keys ∧
      ∀ k, (CloseOrder h s orderID now).store.Get k =
        if k = orderID then some { order with Status := OrderStatusClosed } else s.Get k) := by
  constructor
  · intro hst
    simp [CloseOrder, hget, hst, StatusBadRequest]
  · intro hst hok
    have e : CloseOrder h s orderID now =
        ⟨(s.UpdateStatus orderID OrderStatusClosed now).1, StatusOK,
          .closed "订单已关闭" orderID, [.CloseOrder orderID]⟩ := by
      simp [CloseOrder, hget, hst, hok]
    rw [e]
    refine ⟨rfl, rfl, OrderStore.UpdateStatus_keys _ _ _ _, ?_⟩
    intro k
    rw [OrderStore.UpdateStatus_Get, hget]
    have ne1 : OrderStatusClosed ≠ OrderStatusSuccess := by decide
    have ne2 : OrderStatusClosed ≠ OrderStatusRefunded := by decide
    simp [ne1, ne2]

theorem CloseOrder_only_from_notpay_witness :
    (sampleStore.Get "N2" = some paidOrder ∧ paidOrder.Status ≠ OrderStatusNotPay ∧
      (CloseOrder sampleService sampleStore "N2" 20).status = 400 ∧
      (CloseOrder sampleService sampleStore "N2" 20).calls = [] ∧
      (CloseOrder sampleService sampleStore "N2" 20).store = sampleStore) ∧
    (sampleStore.Get "N1" = some sampleOrder ∧ sampleOrder.Status = OrderStatusNotPay ∧
      sampleService.CloseOrder "N1" = none ∧
      (CloseOrder sampleService sampleStore "N1" 20).status = 200 ∧
      (CloseOrder sampleService sampleStore "N1" 20).calls = [UpstreamCall.CloseOrder "N1"] ∧
      (CloseOrder sampleService sampleStore "N1" 20).store.keys = sampleStore.keys ∧
      ∀ k, (CloseOrder sampleService sampleStore "N1" 20).store.Get k =
        if k = "N1" then some { sampleOrder with Status := OrderStatusClosed }
        else sampleStore.Get k) :=
  ⟨⟨by decide, by decide,
      (CloseOrder_only_from_notpay sampleService sampleStore "N2" 20 paidOrder
        (by decide)).1 (by decide)⟩,
    ⟨by decide, by decide, rfl,
      (CloseOrder_only_from_notpay sampleService sampleStore "N1" 20 sampleOrder
        (by decide)).2 (by decide) rfl⟩⟩

/-- C4: for a successfully parsed payment-success notification (event type
TRANSACTION.SUCCESS) whose merchant order number is a key of the store, handling it is
`UpdatePayInfo` on that key, which returns true; afterwards the order under that key is
the previous record with status SUCCESS, the transaction id of the notification and a
payment time set to the instant of handling, whatever its previous status; its other
fields, every other key and the set of keys are as before. -/
theorem payment_notify_marks_order_paid (s : OrderStore) (transaction : Transaction)
    (asRefund : Except String Refund) (now : Time) (order : Order)
    (hget : s.Get transaction.OutTradeNo = some order) :
    (PaymentNotify s (.ok ⟨"TRANSACTION.SUCCESS"⟩) (.ok transaction) asRefund now).store =
      (s.UpdatePayInfo transaction.OutTradeNo transaction.TransactionID now).1 ∧
    (handlePaymentNotify s (.ok transaction) now).store =
      (s.UpdatePayInfo transaction.OutTradeNo transaction.TransactionID now).1 ∧
    (s.UpdatePayInfo transaction.OutTradeNo transaction.TransactionID now).2 = true ∧
    (s.UpdatePayInfo transaction.OutTradeNo transaction.TransactionID now).1.keys = s.keys ∧
    ∀ k, (s.UpdatePayInfo transaction.OutTradeNo transaction.TransactionID now).1.Get k =
      if k = transaction.OutTradeNo then
        some { order with Status := OrderStatusSuccess,
                          TransactionID := transaction.TransactionID,
                          PayTime := some now }
      else s.Get k := by
  refine ⟨by simp [PaymentNotify, handlePaymentNotify], by simp [handlePaymentNotify],
    ?_, OrderStore.UpdatePayInfo_keys _ _ _ _, ?_⟩
  · rw [OrderStore.UpdatePayInfo_snd, hget]
    rfl
  · intro k
    rw [OrderStore.UpdatePayInfo_Get, hget]
    rfl

theorem payment_notify_marks_order_paid_witness :
    sampleStore.Get "N3" = some refundingOrder ∧
    (sampleStore.UpdatePayInfo "N3" "T9" 30).2 = true ∧
    ((PaymentNotify sampleStore (.ok ⟨"TRANSACTION.SUCCESS"⟩)
        (.ok ⟨"wx1", "m1", "N3", "T9", "SUCCESS", "2024-01-01T12:00:00+08:00", 80⟩)
        (.error "not a refund") 30).store.Get "N3") =
      some { refundingOrder with Status := OrderStatusSuccess, TransactionID := "T9",
                                 PayTime := some 30 } := by
  have h := payment_notify_marks_order_paid sampleStore
    ⟨"wx1", "m1", "N3", "T9", "SUCCESS", "2024-01-01T12:00:00+08:00", 80⟩
    (.error "not a refund") 30 refundingOrder (by decide)
  refine ⟨by decide, h.2.2.1, ?_⟩
  rw [h.1, h.2.2.2.2 "N3"]
  rfl

/-- C5: for a store holding an order in REFUNDING and a successfully parsed refund
notification for that order number whose refund status is CLOSED, the order's status after
handling is SUCCESS: the handler stores the previous record with status SUCCESS and the
payment time set to the instant of handling. -/
theorem refund_closed_notify_reverts_to_success (s : OrderStore) (eventType : String)
    (asTransaction : Except String Transaction) (refund : Refund) (now : Time) (order : Order)
    (hev : eventType = "REFUND.SUCCESS" ∨ eventType = "REFUND.ABNORMAL" ∨
      eventType = "REFUND.CLOSED")
    (hget : s.Get refund.OutTradeNo = some order)
    (hst : order.Status = OrderStatusRefunding)
    (hclosed : refund.RefundStatus = "CLOSED") :
    (PaymentNotify s (.ok ⟨eventType⟩) asTransaction (.ok refund) now).store =
      (handleRefundNotify s (.ok refund) now).store ∧
    ((handleRefundNotify s (.ok refund) now).store.Get refund.OutTradeNo).map
      (fun o => o.Status) = some OrderStatusSuccess ∧
    (handleRefundNotify s (.ok refund) now).store.Get refund.OutTradeNo =
      some { order with Status := OrderStatusSuccess, PayTime := some now } ∧
    order.Status ≠ OrderStatusSuccess := by
  have hne : eventType ≠ "TRANSACTION.SUCCESS" := by
    rcases hev with h | h | h <;> rw [h] <;> decide
  have hs : refund.RefundStatus ≠ "SUCCESS" := by rw [hclosed]; decide
  have e : (handleRefundNotify s (.ok refund) now).store =
      (s.UpdateStatus refund.OutTradeNo OrderStatusSuccess now).1 := by
    simp [handleRefundNotify, hs, hclosed]
  have ne1 : OrderStatusSuccess ≠ OrderStatusRefunded := by decide
  have g : (handleRefundNotify s (.ok refund) now).store.Get refund.OutTradeNo =
      some { order with Status := OrderStatusSuccess, PayTime := some now } := by
    rw [e, OrderStore.UpdateStatus_Get, hget]
    simp [ne1]
  refine ⟨?_, ?_, g, ?_⟩
  · simp [PaymentNotify, hne, hev]
  · rw [g]
    rfl
  · rw [hst]
    decide

theorem refund_closed_notify_reverts_to_success_witness :
    sampleStore.Get "N3" = some refundingOrder ∧
    refundingOrder.Status = OrderStatusRefunding ∧
    ((handleRefundNotify sampleStore
        (.ok ⟨"N3", "R3", "50000000382019052709732678859", "CLOSED", "", 80⟩)
        40).store.Get "N3").map (fun o => o.Status) = some OrderStatusSuccess :=
  ⟨by decide, by decide,
    (refund_closed_notify_reverts_to_success sampleStore "REFUND.CLOSED"
      (.error "not a transaction")
      ⟨"N3", "R3", "50000000382019052709732678859", "CLOSED", "", 80⟩ 40 refundingOrder
      (Or.inr (Or.inr rfl)) (by decide) (by decide) rfl).2.1⟩

/-- C6: `UpdateStatus` returns true exactly when the key is present. When present the
record under the key becomes the previous record with the given status, with the payment
time set to the instant of the call exactly when the status is SUCCESS and the refund time
set exactly when the status is REFUNDED; every other field, every other key and the set
of keys are as before. When absent the store is as before. -/
theorem UpdateStatus_contract (s : OrderStore) (k : String) (status : OrderStatus)
    (now : Time) :
    ((s.UpdateStatus k status now).2 = true ↔ k ∈ s.keys) ∧
    (∀ k', (s.UpdateStatus k status now).1.Get k' =
      if k' = k then
        (s.Get k).map (fun o =>
          { o with Status := status,
                   PayTime := if status = OrderStatusSuccess then some now else o.PayTime,
                   RefundTime := if status = OrderStatusRefunded then some now
                                 else o.RefundTime })
      else s.Get k') ∧
    (s.UpdateStatus k status now).1.keys = s.keys ∧
    (k ∉ s.keys → (s.UpdateStatus k status now).1 = s) := by
  refine ⟨?_, OrderStore.UpdateStatus_Get s k status now, OrderStore.UpdateStatus_keys _ _ _ _,
    ?_⟩
  · rw [OrderStore.UpdateStatus_snd]
    exact s.isSome_Get_iff k
  · intro hk
    exact OrderStore.UpdateStatus_absent s k status now (s.Get_eq_none_of_not_mem k hk)

theorem UpdateStatus_contract_witness :
    "N7" ∉ sampleStore.keys ∧
    (sampleStore.UpdateStatus "N7" OrderStatusRefunded 50).1 = sampleStore :=
  ⟨by decide, (UpdateStatus_contract sampleStore "N7" OrderStatusRefunded 50).2.2.2 (by decide)⟩

/-- C7: for a valid create request without an existing order number (product name
present, amount at least 1), after `CreateOrder` the store is the previous one with the new
record saved, and `Get` by the generated merchant order number finds that record: its
description is the product name, its amount the requested amount, its status NOTPAY, and
its payment time, transaction id and refund fields are unset. When the call to the
payment service succeeds the response is 200 and carries that order number and amount. -/
theorem CreateOrder_new_order_retrievable (h : WechatPayService) (s : OrderStore)
    (req : CreateOrderRequest) (invalid stamp uuid idUuid : String) (now : Time)
    (hname : req.ProductName ≠ "") (hamount : 1 ≤ req.Amount) (hnew : req.OutTradeNo = "") :
    (CreateOrder h s (.ok req) invalid stamp uuid idUuid now).store.Get
        (newOutTradeNo stamp uuid) =
      some { ID := idUuid, OutTradeNo := newOutTradeNo stamp uuid,
             Description := req.ProductName, Amount := req.Amount,
             Status := OrderStatusNotPay, CreateTime := now, PayTime := none,
             TransactionID := "", RefundNo := "", RefundAmount := 0, RefundTime := none } ∧
    (∀ k, k ≠ newOutTradeNo stamp uuid →
      (CreateOrder h s (.ok req) invalid stamp uuid idUuid now).store.Get k = s.Get k) ∧
    (∀ codeURL,
      h.CreateNativeOrder (newOutTradeNo stamp uuid) req.ProductName req.Amount = .ok codeURL →
      (CreateOrder h s (.ok req) invalid stamp uuid idUuid now).status = 200 ∧
      (CreateOrder h s (.ok req) invalid stamp uuid idUuid now).body =
        Body.created ⟨newOutTradeNo stamp uuid, codeURL, req.Amount, req.ProductName⟩) := by
  have hne : req.Amount ≠ 0 := by omega
  have hvalid : req.valid = true := by simp [CreateOrderRequest.valid, hname, hne, hamount]
  have e : CreateOrder h s (.ok req) invalid stamp uuid idUuid now =
      createNative h
        (s.Save { ID := idUuid, OutTradeNo := newOutTradeNo stamp uuid,
                  Description := req.ProductName, Amount := req.Amount,
                  Status := OrderStatusNotPay, CreateTime := now, PayTime := none,
                  TransactionID := "", RefundNo := "", RefundAmount := 0, RefundTime := none })
        (newOutTradeNo stamp uuid) req.ProductName req.Amount := by
    simp [CreateOrder, bindCreateOrderRequest, hvalid, hnew]
  have hstore : ∀ (t : OrderStore) (a b : String) (c : Int), (createNative h t a b c).store = t := by
    intro t a b c
    unfold createNative
    cases h.CreateNativeOrder a b c <;> rfl
  rw [e]
  refine ⟨?_, ?_, ?_⟩
  · rw [hstore, OrderStore.Get_Save]
    simp
  · intro k hk
    rw [hstore, OrderStore.Get_Save]
    simp [hk]
  · intro codeURL hok
    simp [createNative, hok, StatusOK]

theorem CreateOrder_new_order_retrievable_witness :
    (CreateOrder sampleService sampleStore (.ok ⟨"notebook", 1, ""⟩) "invalid request"
        "20240101120000" "0f8fad5b-d9cb-469f-a165-70867728950e"
        "7c9e6679-7425-40de-944b-e07fc1f90ae7" 60).store.Get "N202401011200000f8fad5b" =
      some { ID := "7c9e6679-7425-40de-944b-e07fc1f90ae7",
             OutTradeNo := "N202401011200000f8fad5b",
             Description := "notebook", Amount := 1,
             Status := "NOTPAY", CreateTime := 60, PayTime := none,
             TransactionID := "", RefundNo := "", RefundAmount := 0, RefundTime := none } ∧
    (CreateOrder sampleService sampleStore (.ok ⟨"notebook", 1, ""⟩) "invalid request"
        "20240101120000" "0f8fad5b-d9cb-469f-a165-70867728950e"
        "7c9e6679-7425-40de-944b-e07fc1f90ae7" 60).body =
      Body.created ⟨"N202401011200000f8fad5b", "weixin://wxpay/bizpayurl?pr=1", 1,
        "notebook"⟩ := by
  have h := CreateOrder_new_order_retrievable sampleService sampleStore ⟨"notebook", 1, ""⟩
    "invalid request" "20240101120000" "0f8fad5b-d9cb-469f-a165-70867728950e"
    "7c9e6679-7425-40de-944b-e07fc1f90ae7" 60 (by decide) (by decide) rfl
  have hno : newOutTradeNo "20240101120000" "0f8fad5b-d9cb-469f-a165-70867728950e" =
      "N202401011200000f8fad5b" := by decide
  rw [hno] at h
  exact ⟨h.1, (h.2.2 "weixin://wxpay/bizpayurl?pr=1" rfl).2⟩

/-- C8: in every store reached from the empty store by a sequence of `Save`,
`UpdateStatus`, `UpdatePayInfo`, `UpdateRefundInfo` and `Delete`, a record stored under a
key has that key as its merchant order number, so two entries have the same merchant
order number only when they are the same entry; and on any store none of `UpdateStatus`,
`UpdatePayInfo`, `UpdateRefundInfo` changes the set of keys or the merchant order number
of the record under any key. -/
theorem OutTradeNo_is_key_invariant (ops : List StoreOp) (k₁ k₂ : String) (o₁ o₂ : Order)
    (h₁ : (runOps NewOrderStore ops).Get k₁ = some o₁)
    (h₂ : (runOps NewOrderStore ops).Get k₂ = some o₂) :
    o₁.OutTradeNo = k₁ ∧
    (o₁.OutTradeNo = o₂.OutTradeNo ↔ k₁ = k₂) ∧
    (∀ (s : OrderStore) (k k' status tid no : String) (now : Time) (amount : Int),
      (s.UpdateStatus k status now).1.keys = s.keys ∧
      ((s.UpdateStatus k status now).1.Get k').map (fun o => o.OutTradeNo) =
        (s.Get k').map (fun o => o.OutTradeNo) ∧
      (s.UpdatePayInfo k tid now).1.keys = s.keys ∧
      ((s.UpdatePayInfo k tid now).1.Get k').map (fun o => o.OutTradeNo) =
        (s.Get k').map (fun o => o.OutTradeNo) ∧
      (s.UpdateRefundInfo k no amount).1.keys = s.keys ∧
      ((s.UpdateRefundInfo k no amount).1.Get k').map (fun o => o.OutTradeNo) =
        (s.Get k').map (fun o => o.OutTradeNo)) := by
  have inv := KeyedByOutTradeNo_runOps ops NewOrderStore KeyedByOutTradeNo_new
  have e₁ := inv k₁ o₁ h₁
  have e₂ := inv k₂ o₂ h₂
  refine ⟨e₁, by rw [e₁, e₂], ?_⟩
  intro s k k' status tid no now amount
  refine ⟨OrderStore.UpdateStatus_keys _ _ _ _, ?_, OrderStore.UpdatePayInfo_keys _ _ _ _, ?_,
    OrderStore.UpdateRefundInfo_keys _ _ _ _, ?_⟩
  · rw [OrderStore.UpdateStatus_Get]
    by_cases hk : k' = k
    · subst hk
      cases s.Get k' <;> simp
    · simp [hk]
  · rw [OrderStore.UpdatePayInfo_Get]
    by_cases hk : k' = k
    · subst hk
      cases s.Get k' <;> simp
    · simp [hk]
  · rw [OrderStore.UpdateRefundInfo_Get]
    by_cases hk : k' = k
    · subst hk
      cases s.Get k' <;> simp
    · simp [hk]

theorem OutTradeNo_is_key_invariant_witness :
    (runOps NewOrderStore
      [.Save sampleOrder, .Save paidOrder, .UpdatePayInfo "N1" "T1" 20, .Save refundingOrder,
        .Delete "N3", .UpdateRefundInfo "N2" "R2" 250, .UpdateStatus "N2" "REFUNDED" 30]).Get
        "N1" =
      some { sampleOrder with Status := "SUCCESS", TransactionID := "T1", PayTime := some 20 } ∧
    (runOps NewOrderStore
      [.Save sampleOrder, .Save paidOrder, .UpdatePayInfo "N1" "T1" 20, .Save refundingOrder,
        .Delete "N3", .UpdateRefundInfo "N2" "R2" 250, .UpdateStatus "N2" "REFUNDED" 30]).Get
        "N2" =
      some { paidOrder with Status := "REFUNDED", RefundNo := "R2", RefundAmount := 250,
                            RefundTime := some 30 } ∧
    ({ sampleOrder with Status := "SUCCESS", TransactionID := "T1",
                        PayTime := some 20 } : Order).OutTradeNo = "N1" := by
  have g₁ : (runOps NewOrderStore
      [.Save sampleOrder, .Save paidOrder, .UpdatePayInfo "N1" "T1" 20, .Save refundingOrder,
        .Delete "N3", .UpdateRefundInfo "N2" "R2" 250, .UpdateStatus "N2" "REFUNDED" 30]).Get
        "N1" =
      some { sampleOrder with Status := "SUCCESS", TransactionID := "T1", PayTime := some 20 } := by
    decide
  have g₂ : (runOps NewOrderStore
      [.Save sampleOrder, .Save paidOrder, .UpdatePayInfo "N1" "T1" 20, .Save refundingOrder,
        .Delete "N3", .UpdateRefundInfo "N2" "R2" 250, .UpdateStatus "N2" "REFUNDED" 30]).Get
        "N2" =
      some { paidOrder with Status := "REFUNDED", RefundNo := "R2", RefundAmount := 250,
                            RefundTime := some 30 } := by
    decide
  exact ⟨g₁, g₂, (OutTradeNo_is_key_invariant _ "N1" "N2" _ _ g₁ g₂).1⟩

/-- The refresh of `QueryOrder` on the answers it handles. For a stored order whose status
is not NOTPAY, `QueryOrder` makes no call to the payment service, leaves the store as it was
and answers 200 with the stored order. For a stored order in NOTPAY it calls the payment
service once: a trade state SUCCESS that comes with a transaction id makes the order
SUCCESS with that transaction id and a payment time; a trade state CLOSED makes it CLOSED;
an error, a missing trade state or any other trade state leaves the store as it was. The
response is the order as stored afterwards. The answer SUCCESS without a transaction id is
not among these cases. -/
theorem QueryOrder_refreshes_when_unpaid (h : WechatPayService) (s : OrderStore)
    (orderID : String) (now : Time) (order : Order) (hget : s.Get orderID = some order) :
    (order.Status ≠ OrderStatusNotPay →
      QueryOrder h s orderID now = some ⟨s, 200, .order (some order), []⟩) ∧
    (order.Status = OrderStatusNotPay →
      (∀ tid, h.QueryOrder orderID = .ok ⟨some "SUCCESS", some tid⟩ →
        QueryOrder h s orderID now =
          some ⟨(s.UpdatePayInfo orderID tid now).1, 200,
            .order (some { order with Status := OrderStatusSuccess, TransactionID := tid,
                                      PayTime := some now }),
            [.QueryOrder orderID]⟩ ∧
        (s.UpdatePayInfo orderID tid now).1.Get orderID =
          some { order with Status := OrderStatusSuccess, TransactionID := tid,
                            PayTime := some now }) ∧
      (∀ tid, h.QueryOrder orderID = .ok ⟨some "CLOSED", tid⟩ →
        QueryOrder h s orderID now =
          some ⟨(s.UpdateStatus orderID OrderStatusClosed now).1, 200,
            .order (some { order with Status := OrderStatusClosed }),
            [.QueryOrder orderID]⟩ ∧
        (s.UpdateStatus orderID OrderStatusClosed now).1.Get orderID =
          some { order with Status := OrderStatusClosed }) ∧
      (∀ e, h.QueryOrder orderID = .error e →
        QueryOrder h s orderID now =
          some ⟨s, 200, .order (some order), [.QueryOrder orderID]⟩) ∧
      (∀ resp, h.QueryOrder orderID = .ok resp → resp.TradeState ≠ some "SUCCESS" →
        resp.TradeState ≠ some "CLOSED" →
        QueryOrder h s orderID now =
          some ⟨s, 200, .order (some order), [.QueryOrder orderID]⟩)) := by
  have gpay : ∀ tid, (s.UpdatePayInfo orderID tid now).1.Get orderID =
      some { order with Status := OrderStatusSuccess, TransactionID := tid,
                        PayTime := some now } := by
    intro tid
    rw [OrderStore.UpdatePayInfo_Get, hget]
    simp
  have gclosed : (s.UpdateStatus orderID OrderStatusClosed now).1.Get orderID =
      some { order with Status := OrderStatusClosed } := by
    rw [OrderStore.UpdateStatus_Get, hget]
    have ne1 : OrderStatusClosed ≠ OrderStatusSuccess := by decide
    have ne2 : OrderStatusClosed ≠ OrderStatusRefunded := by decide
    simp [ne1, ne2]
  constructor
  · intro hst
    simp [QueryOrder, hget, hst, StatusOK]
  · intro hst
    refine ⟨?_, ?_, ?_, ?_⟩
    · intro tid hq
      refine ⟨?_, gpay tid⟩
      simp [QueryOrder, hget, hst, hq, gpay tid, StatusOK]
    · intro tid hq
      refine ⟨?_, gclosed⟩
      have ne : ("CLOSED" : String) ≠ "SUCCESS" := by decide
      simp [QueryOrder, hget, hst, hq, gclosed, StatusOK, ne]
    · intro e hq
      simp [QueryOrder, hget, hst, hq, StatusOK]
    · intro resp hq h1 h2
      cases hts : resp.TradeState with
      | none => simp [QueryOrder, hget, hst, hq, hts, StatusOK]
      | some ts =>
        have n1 : ts ≠ "SUCCESS" := fun hc => h1 (by rw [hts, hc])
        have n2 : ts ≠ "CLOSED" := fun hc => h2 (by rw [hts, hc])
        simp [QueryOrder, hget, hst, hq, hts, n1, n2, StatusOK]

theorem QueryOrder_refreshes_when_unpaid_witness :
    (sampleStore.Get "N2" = some paidOrder ∧ paidOrder.Status ≠ OrderStatusNotPay ∧
      QueryOrder sampleService sampleStore "N2" 70 =
        some ⟨sampleStore, 200, .order (some paidOrder), []⟩) ∧
    (sampleStore.Get "N1" = some sampleOrder ∧ sampleOrder.Status = OrderStatusNotPay ∧
      sampleService.QueryOrder "N1" = .ok ⟨some "SUCCESS", some "T1"⟩ ∧
      (sampleStore.UpdatePayInfo "N1" "T1" 70).1.Get "N1" =
        some { sampleOrder with Status := OrderStatusSuccess, TransactionID := "T1",
                                PayTime := some 70 }) :=
  ⟨⟨by decide, by decide,
      (QueryOrder_refreshes_when_unpaid sampleService sampleStore "N2" 70 paidOrder
        (by decide)).1 (by decide)⟩,
    ⟨by decide, by decide, rfl,
      ((QueryOrder_refreshes_when_unpaid sampleService sampleStore "N1" 70 sampleOrder
        (by decide)).2 (by decide)).1 "T1" rfl |>.2⟩⟩

/-- C9 (the code departs from it): the stored order `N1` is in NOTPAY and the payment
service answers the query with trade state SUCCESS and a nil transaction id. `QueryOrder`
tests only `resp.TradeState` for nil and then dereferences `resp.TransactionId`: the
handler does not return, `UpdatePayInfo` is not reached and no order is answered, so the
order is not made SUCCESS. -/
theorem QueryOrder_success_without_transaction_id_panics :
    sampleStore.Get "N1" = some sampleOrder ∧
    sampleOrder.Status = OrderStatusNotPay ∧
    serviceWithoutTransactionId.QueryOrder "N1" = .ok ⟨some "SUCCESS", none⟩ ∧
    QueryOrder serviceWithoutTransactionId sampleStore "N1" 70 = none ∧
    (QueryOrder serviceWithoutTransactionId sampleStore "N1" 70).isSome = false ∧
    sampleStore.Get "N1" ≠
      some { sampleOrder with Status := OrderStatusSuccess, PayTime := some 70 } := by
  have hget : sampleStore.Get "N1" = some sampleOrder := by decide
  have hq : QueryOrder serviceWithoutTransactionId sampleStore "N1" 70 = none :=
    QueryOrder_nil_transaction_id serviceWithoutTransactionId sampleStore "N1" 70 sampleOrder
      hget (by decide) rfl
  refine ⟨hget, by decide, rfl, hq, ?_, by decide⟩
  rw [hq]
  rfl

/-- C10: `UpdateRefundInfo` returns true exactly when the key is present. When present the
record under the key becomes the previous record with the given refund number and refund
amount and with status REFUNDING, whatever the previous status; its other fields (refund
time and payment time among them), every other key and the set of keys are as before.
When absent the store is as before. After an accepted refund (order in SUCCESS, the refund
call succeeds) the order is in REFUNDING with the refund number and refund amount that
were sent to the payment service. -/
theorem UpdateRefundInfo_contract (s : OrderStore) (k refundNo : String) (refundAmount : Int) :
    ((s.UpdateRefundInfo k refundNo refundAmount).2 = true ↔ k ∈ s.keys) ∧
    (∀ k', (s.UpdateRefundInfo k refundNo refundAmount).1.Get k' =
      if k' = k then
        (s.Get k).map (fun o =>
          { o with RefundNo := refundNo, RefundAmount := refundAmount,
                   Status := OrderStatusRefunding })
      else s.Get k') ∧
    (s.UpdateRefundInfo k refundNo refundAmount).1.keys = s.keys ∧
    (k ∉ s.keys → (s.UpdateRefundInfo k refundNo refundAmount).1 = s) ∧
    (∀ (h : WechatPayService) (bound : Option RefundRequest) (stamp uuid : String)
      (order : Order) (resp : RefundResult),
      s.Get k = some order → order.Status = OrderStatusSuccess →
      h.ApplyRefund k (newOutRefundNo stamp uuid) (refundFeeOf (refundRequestOf bound) order)
        (refundRequestOf bound).Reason = .ok resp →
      (RefundOrder h s k bound stamp uuid).status = 200 ∧
      (RefundOrder h s k bound stamp uuid).calls =
        [.ApplyRefund k (newOutRefundNo stamp uuid)
          (refundFeeOf (refundRequestOf bound) order) (refundRequestOf bound).Reason] ∧
      (RefundOrder h s k bound stamp uuid).store.Get k =
        some { order with RefundNo := newOutRefundNo stamp uuid,
                          RefundAmount := refundFeeOf (refundRequestOf bound) order,
                          Status := OrderStatusRefunding } ∧
      ∀ k', k' ≠ k → (RefundOrder h s k bound stamp uuid).store.Get k' = s.Get k') := by
  refine ⟨?_, OrderStore.UpdateRefundInfo_Get s k refundNo refundAmount,
    OrderStore.UpdateRefundInfo_keys _ _ _ _, ?_, ?_⟩
  · rw [OrderStore.UpdateRefundInfo_snd]
    exact s.isSome_Get_iff k
  · intro hk
    exact OrderStore.UpdateRefundInfo_absent s k refundNo refundAmount
      (s.Get_eq_none_of_not_mem k hk)
  · intro h bound stamp uuid order resp hget hst hok
    have e : RefundOrder h s k bound stamp uuid =
        ⟨(s.UpdateRefundInfo k (newOutRefundNo stamp uuid)
            (refundFeeOf (refundRequestOf bound) order)).1, StatusOK,
          .refund "退款申请已提交" k (newOutRefundNo stamp uuid)
            (refundFeeOf (refundRequestOf bound) order) resp.Status,
          [.ApplyRefund k (newOutRefundNo stamp uuid)
            (refundFeeOf (refundRequestOf bound) order) (refundRequestOf bound).Reason]⟩ := by
      simp [RefundOrder, hget, hst, hok]
    rw [e]
    refine ⟨rfl, rfl, ?_, ?_⟩
    · show (s.UpdateRefundInfo k _ _).1.Get k = _
      rw [OrderStore.UpdateRefundInfo_Get, hget]
      simp
    · intro k' hk'
      show (s.UpdateRefundInfo k _ _).1.Get k' = _
      rw [OrderStore.UpdateRefundInfo_Get]
      simp [hk']

theorem UpdateRefundInfo_contract_witness :
    ("N7" ∉ sampleStore.keys ∧ (sampleStore.UpdateRefundInfo "N7" "R7" 10).1 = sampleStore) ∧
    (sampleStore.Get "N2" = some paidOrder ∧ paidOrder.Status = OrderStatusSuccess ∧
      (RefundOrder sampleService sampleStore "N2" (some ⟨30, "damaged"⟩) "20240101120000"
          "0f8fad5b-d9cb-469f-a165-70867728950e").store.Get "N2" =
        some { paidOrder with RefundNo := "R202401011200000f8fad5b", RefundAmount := 30,
                              Status := OrderStatusRefunding }) := by
  refine ⟨⟨by decide,
      (UpdateRefundInfo_contract sampleStore "N7" "R7" 10).2.2.2.1 (by decide)⟩,
    by decide, by decide, ?_⟩
  have h := ((UpdateRefundInfo_contract sampleStore "N2" "" 0).2.2.2.2 sampleService
    (some ⟨30, "damaged"⟩) "20240101120000" "0f8fad5b-d9cb-469f-a165-70867728950e"
    paidOrder ⟨some "PROCESSING"⟩ (by decide) (by decide) rfl).2.2.1
  rw [h]
  decide

/-! ## The refund amount -/

/-- For an order in SUCCESS, `RefundOrder` calls the payment service once, with the amount
`refundFeeOf` of the request. -/
theorem RefundOrder_calls_of_success (h : WechatPayService) (s : OrderStore)
    (orderID : String) (bound : Option RefundRequest) (stamp uuid : String) (order : Order)
    (hget : s.Get orderID = some order) (hst : order.Status = OrderStatusSuccess) :
    (RefundOrder h s orderID bound stamp uuid).calls =
      [.ApplyRefund orderID (newOutRefundNo stamp uuid)
        (refundFeeOf (refundRequestOf bound) order) (refundRequestOf bound).Reason] := by
  unfold RefundOrder
  simp only [hget, hst]
  cases h.ApplyRefund orderID (newOutRefundNo stamp uuid)
    (refundFeeOf (refundRequestOf bound) order) (refundRequestOf bound).Reason <;> simp

/-- The refund amount is the full order amount when the requested fee is 0 or exceeds the
order's amount, and when the body is missing. -/
theorem refundFeeOf_full (req : RefundRequest) (order : Order) :
    (req.RefundFee = 0 ∨ req.RefundFee > order.Amount → refundFeeOf req order = order.Amount) ∧
    refundFeeOf (refundRequestOf none) order = order.Amount := by
  constructor
  · intro h
    simp [refundFeeOf, h]
  · simp [refundFeeOf, refundRequestOf]

/-- For an order with a positive amount and a requested fee that is not negative, the
refund amount is at least 1 and at most the order's amount. -/
theorem refundFeeOf_bounds_of_nonneg (req : RefundRequest) (order : Order)
    (hpos : 0 < order.Amount) (hfee : 0 ≤ req.RefundFee) :
    1 ≤ refundFeeOf req order ∧ refundFeeOf req order ≤ order.Amount := by
  unfold refundFeeOf
  split
  · omega
  · rename_i h
    simp only [not_or, gt_iff_lt, not_lt] at h
    omega

/-- A negative requested fee is neither 0 nor above the order's amount: it is the refund
amount as it stands. -/
theorem refundFeeOf_of_neg (req : RefundRequest) (order : Order) (hpos : 0 < order.Amount)
    (hfee : req.RefundFee < 0) : refundFeeOf req order = req.RefundFee := by
  unfold refundFeeOf
  rw [if_neg]
  simp only [not_or, gt_iff_lt, not_lt]
  constructor <;> omega

/-- C11 (the code departs from it): the stored order `N2` is in SUCCESS with amount 250 and
the request asks for `refund_fee = -5`. `RefundOrder` sends the amount -5 to the payment
service and, the call succeeding, records -5 as the order's refund amount: the amount is
not at least 1. -/
theorem RefundOrder_negative_fee_sent_and_recorded :
    sampleStore.Get "N2" = some paidOrder ∧
    paidOrder.Status = OrderStatusSuccess ∧ 0 < paidOrder.Amount ∧
    (RefundOrder sampleService sampleStore "N2" (some ⟨-5, "damaged"⟩) "20240101120000"
        "0f8fad5b-d9cb-469f-a165-70867728950e").status = 200 ∧
    (RefundOrder sampleService sampleStore "N2" (some ⟨-5, "damaged"⟩) "20240101120000"
        "0f8fad5b-d9cb-469f-a165-70867728950e").calls =
      [.ApplyRefund "N2" "R202401011200000f8fad5b" (-5) "damaged"] ∧
    (RefundOrder sampleService sampleStore "N2" (some ⟨-5, "damaged"⟩) "20240101120000"
        "0f8fad5b-d9cb-469f-a165-70867728950e").store.Get "N2" =
      some { paidOrder with RefundNo := "R202401011200000f8fad5b", RefundAmount := -5,
                            Status := OrderStatusRefunding } ∧
    ¬ (1 ≤ refundFeeOf ⟨-5, "damaged"⟩ paidOrder) := by
  decide

end WechatPay
